import Mathlib

/-!
Verification of `bokeh/layouts.py` (layout builders, `GridSpec`, `gridplot`).

The Python module is shallowly embedded: Bokeh model objects (`LayoutDOM`,
`Plot`, `Row`, `Column`, `GridBox`, `ToolbarBox`) become an inductive tree,
dynamic Python values passed to the builders become the inductive `PyVal`,
exceptions become `Except PyErr`, and in-place attribute mutation becomes
functional update of the tree (Python mutates the same objects that end up
in the returned layout, so the returned tree carries every mutation).

Definitions mirror `src/bokeh/layouts.py` line by line.  The classes
`LayoutDOM`, `Plot`, `ProxyToolbar`, `ToolbarBox` and the `Location` enum are
imported by `layouts.py` from modules that are not part of this repository
snapshot; their small interface (`sizing_mode` attribute, `plot.toolbar.tools`,
`plot.toolbar_location`, `select`, the four locations) is modelled from the
specification where noted.
-/

/-- Errors raised by the Python code: `ValueError`, `IndexError` and the
`TypeError`s Python itself raises (indexing or iterating a non-sequence). -/
inductive PyErr where
  | valueError : String → PyErr
  | indexError : String → PyErr
  | typeError : String → PyErr
deriving DecidableEq, Repr

/-- Modelled from the spec: the layout-node object graph of the host library.
A "layout node" is "a polymorphic GUI element (plot, widget, or container)
with a sizing mode attribute; containers own an ordered sequence of child
nodes".  `Plot` carries the tool list of its toolbar (tools are opaque ids), its
`toolbar_location` and its `plot_width`/`plot_height`; `ToolbarBox` carries
the aggregated tool list of the proxy toolbar and its location.  `GridBox`
children are `(item, row, col)` triples exactly as built by `gridplot`. -/
inductive LayoutDOM where
  | Plot (id : Nat) (tools : List Nat) (toolbar_location : Option String)
      (plot_width plot_height : Nat) (sizing_mode : Option String) : LayoutDOM
  | Widget (id : Nat) (sizing_mode : Option String) : LayoutDOM
  | Row (children : List LayoutDOM) (sizing_mode : Option String) : LayoutDOM
  | Column (children : List LayoutDOM) (sizing_mode : Option String) : LayoutDOM
  | GridBox (children : List (LayoutDOM × Nat × Nat)) (sizing_mode : Option String) : LayoutDOM
  | ToolbarBox (tools : List Nat) (toolbar_location : String) (sizing_mode : Option String) : LayoutDOM

/-- A dynamic Python value as handled by the builders: `None`, a `LayoutDOM`
instance, a (nested) list, a `GridSpec` instance (opaque: only `_handle_children`
passes it through), or some other object (opaque id).  Lists are the only
values the embedding can iterate or subscript; everything else raises
`TypeError` where Python would. -/
inductive PyVal where
  | pynone : PyVal
  | dom : LayoutDOM → PyVal
  | list : List PyVal → PyVal
  | gspec : PyVal
  | other : Nat → PyVal

instance : Inhabited PyVal := ⟨PyVal.pynone⟩

/-- Python truthiness of the values the module tests with `if not children:`
and `if ncols:`: `None` and the empty list are falsy, other objects truthy. -/
def pyFalsy : PyVal → Bool
  | .pynone => true
  | .list l => l.isEmpty
  | _ => false

/-- `for item in v`: lists iterate to their elements, everything else raises
`TypeError`.  (A real `GridSpec` is iterable too; that input path is not
exercised by any claim and is left unmodelled.) -/
def pyIter : PyVal → Except PyErr (List PyVal)
  | .list l => .ok l
  | _ => .error (.typeError "object is not iterable")

/-- `v[i]` for a non-negative index: lists index or raise `IndexError`,
everything else raises `TypeError`. -/
def pyGetItem (v : PyVal) (i : Nat) : Except PyErr PyVal :=
  match v with
  | .list l =>
    match l[i]? with
    | some x => .ok x
    | none => .error (.indexError "list index out of range")
  | _ => .error (.typeError "object is not subscriptable")

/-- `v[i][j]` as evaluated by the 2D case of the grid-spec assignment. -/
def pyGetItem2 (v : PyVal) (i j : Nat) : Except PyErr PyVal :=
  match pyGetItem v i with
  | .error e => .error e
  | .ok r => pyGetItem r j

/-- The local helper `get_or_else(fn, default)` of `GridSpec.__setitem__`:
run the computation, turning an `IndexError` (and only an `IndexError`)
into the default. -/
def get_or_else (v : Except PyErr PyVal) (default : PyVal) : Except PyErr PyVal :=
  match v with
  | .error (.indexError _) => .ok default
  | .error e => .error e
  | .ok x => .ok x

/-- `GridSpec` state: declared size plus the sparse `_arrangement` mapping.
The Python dict is modelled as a partial function from coordinates; every
key the code ever writes is inside `[0, nrows) × [0, ncols)`. -/
structure GridSpec where
  nrows : Nat
  ncols : Nat
  arrangement : Nat × Nat → Option PyVal

/-- `GridSpec.__init__`: empty arrangement. -/
def GridSpec.init (nrows ncols : Nat) : GridSpec :=
  ⟨nrows, ncols, fun _ => none⟩

/-- One axis of a `__setitem__` key: a scalar index or a slice
`start:stop` (`__setitem__` discards the step returned by `slice.indices`,
and the claims only use plain slices, so no step is modelled). -/
inductive PyKey where
  | scalar : Int → PyKey
  | slice : Option Int → Option Int → PyKey
deriving DecidableEq, Repr

/-- One bound of `slice.indices(len)` for a step-1 slice: `none` gives the
default, a negative value counts from the end (clamped at 0), a non-negative
value is clamped at `len`. -/
def sliceBound (v : Option Int) (dflt len : Nat) : Nat :=
  match v with
  | none => dflt
  | some i => if i < 0 then ((len : Int) + i).toNat else min i.toNat len

/-- Normalize one key axis as `__setitem__` does: a slice yields
`(start, some stop)` via `slice.indices`; a scalar is wrapped Python-style
(negative indices count from the end) and bounds-checked, raising
`IndexError` when out of range, yielding `(index, none)`. -/
def normKey (k : PyKey) (len : Nat) : Except PyErr (Nat × Option Nat) :=
  match k with
  | .slice a b => .ok (sliceBound a 0 len, some (sliceBound b len len))
  | .scalar k0 =>
    let k1 := if k0 < 0 then k0 + len else k0
    if k1 ≥ (len : Int) ∨ k1 < 0 then .error (.indexError "index out of range")
    else .ok (k1.toNat, none)

/-- The assignment loops of `__setitem__`: write `get_or_else(f cell, None)`
into the arrangement at each listed cell in order, propagating any error that
is not an `IndexError`. -/
def assignLoop (m : Nat × Nat → Option PyVal) (cells : List (Nat × Nat))
    (f : Nat × Nat → Except PyErr PyVal) : Except PyErr (Nat × Nat → Option PyVal) :=
  match cells with
  | [] => .ok m
  | c :: rest =>
    match get_or_else (f c) .pynone with
    | .error e => .error e
    | .ok v => assignLoop (fun p => if p = c then some v else m p) rest f

/-- `GridSpec.__setitem__`.  The first key axis is normalized (and may raise)
before the second; then the four cases of the source:
scalar/scalar stores `obj` itself, scalar/slice and slice/scalar store
`obj[i]` along the sliced axis, and slice/slice zips the two ranges
positionally storing `obj[i][i]`, with `IndexError`s from the subscripts
turned into `None` by `get_or_else`. -/
def GridSpec.setitem (gs : GridSpec) (key : PyKey × PyKey) (obj : PyVal) :
    Except PyErr GridSpec :=
  match normKey key.1 gs.nrows with
  | .error e => .error e
  | .ok (row1, row2?) =>
    match normKey key.2 gs.ncols with
    | .error e => .error e
    | .ok (col1, col2?) =>
      match row2?, col2? with
      | none, none =>
        .ok { gs with arrangement := fun p => if p = (row1, col1) then some obj else gs.arrangement p }
      | none, some col2 =>
        match assignLoop gs.arrangement ((List.range' col1 (col2 - col1)).map fun col => (row1, col))
            (fun p => pyGetItem obj (p.2 - col1)) with
        | .error e => .error e
        | .ok m => .ok { gs with arrangement := m }
      | some row2, none =>
        match assignLoop gs.arrangement ((List.range' row1 (row2 - row1)).map fun row => (row, col1))
            (fun p => pyGetItem obj (p.1 - row1)) with
        | .error e => .error e
        | .ok m => .ok { gs with arrangement := m }
      | some row2, some col2 =>
        match assignLoop gs.arrangement
            (List.zip (List.range' row1 (row2 - row1)) (List.range' col1 (col2 - col1)))
            (fun p => pyGetItem2 obj (p.1 - row1) (p.2 - col1)) with
        | .error e => .error e
        | .ok m => .ok { gs with arrangement := m }

/-- `GridSpec.__iter__`: materialize the dense `nrows × ncols` array, `None`
where the arrangement is unset.  (The source allocates a `None`-filled array
and writes every dict entry into it; since every key the code writes is in
range, that equals this cell-by-cell lookup.) -/
def GridSpec.iterRows (gs : GridSpec) : List (List PyVal) :=
  (List.range gs.nrows).map fun row =>
    (List.range gs.ncols).map fun col => (gs.arrangement (row, col)).getD .pynone

/-- Cell `(i, j)` of the materialized array (row `i`, column `j`). -/
def GridSpec.cell (gs : GridSpec) (i j : Nat) : PyVal :=
  (gs.iterRows.getD i []).getD j .pynone

theorem GridSpec.cell_eq (gs : GridSpec) (i j : Nat) (hi : i < gs.nrows)
    (hj : j < gs.ncols) : gs.cell i j = (gs.arrangement (i, j)).getD .pynone := by
  simp [GridSpec.cell, GridSpec.iterRows, List.getD, List.getElem?_map,
    List.getElem?_range, hi, hj]

theorem GridSpec.iterRows_length (gs : GridSpec) : gs.iterRows.length = gs.nrows := by
  simp [GridSpec.iterRows]

theorem GridSpec.iterRows_row_length (gs : GridSpec) :
    ∀ rowl ∈ gs.iterRows, rowl.length = gs.ncols := by
  intro rowl h
  simp only [GridSpec.iterRows, List.mem_map] at h
  obtain ⟨r, -, rfl⟩ := h
  simp

theorem normKey_scalar_in (len k : Nat) (h : k < len) :
    normKey (.scalar k) len = .ok (k, none) := by
  simp only [normKey]
  rw [if_neg (by omega), if_neg (by omega)]
  simp

/-- An in-range scalar/scalar assignment stores `obj` at `(r, c)` and leaves
everything else, including the declared size, intact. -/
theorem setitem_scalar_eq (gs : GridSpec) (r c : Nat) (obj : PyVal)
    (hr : r < gs.nrows) (hc : c < gs.ncols) :
    gs.setitem (.scalar r, .scalar c) obj =
      .ok ⟨gs.nrows, gs.ncols, fun p => if p = (r, c) then some obj else gs.arrangement p⟩ := by
  simp [GridSpec.setitem, normKey_scalar_in _ _ hr, normKey_scalar_in _ _ hc]

/-- Claim C3: starting from a fresh `GridSpec nrows ncols`, assigning an
object at one in-range scalar coordinate `(r, c)` and then iterating yields a
dense `nrows × ncols` rectangular array whose cell `(r, c)` is exactly that
object and in which every never-assigned cell is `None`. -/
theorem claim3_scalar_assign_iter (nrows ncols r c : Nat) (obj : PyVal)
    (hr : r < nrows) (hc : c < ncols) :
    ∃ gs', (GridSpec.init nrows ncols).setitem (.scalar r, .scalar c) obj = .ok gs' ∧
      gs'.iterRows.length = nrows ∧
      (∀ rowl ∈ gs'.iterRows, rowl.length = ncols) ∧
      gs'.cell r c = obj ∧
      (∀ i j, i < nrows → j < ncols → ¬(i = r ∧ j = c) → gs'.cell i j = .pynone) := by
  refine ⟨⟨nrows, ncols, fun p => if p = (r, c) then some obj else none⟩,
    setitem_scalar_eq (GridSpec.init nrows ncols) r c obj hr hc, ?_, ?_, ?_, ?_⟩
  · exact GridSpec.iterRows_length _
  · exact GridSpec.iterRows_row_length _
  · rw [GridSpec.cell_eq _ _ _ hr hc]
    simp
  · intro i j hi hj hne
    rw [GridSpec.cell_eq _ _ _ hi hj]
    have : ¬((i, j) = (r, c)) := by
      simp only [Prod.mk.injEq]
      tauto
    simp [this]

/-- Witness for C3 at `nrows = 2`, `ncols = 3`, `(r, c) = (1, 2)`. -/
theorem claim3_witness :
    (1 < 2 ∧ 2 < 3) ∧
    ∃ gs', (GridSpec.init 2 3).setitem (.scalar 1, .scalar 2) (.other 7) = .ok gs' ∧
      gs'.iterRows.length = 2 ∧
      (∀ rowl ∈ gs'.iterRows, rowl.length = 3) ∧
      gs'.cell 1 2 = .other 7 ∧
      (∀ i j, i < 2 → j < 3 → ¬(i = 1 ∧ j = 2) → gs'.cell i j = .pynone) :=
  ⟨by decide, claim3_scalar_assign_iter 2 3 1 2 (.other 7) (by decide) (by decide)⟩

theorem GridSpec.cell_oob (gs : GridSpec) (i j : Nat)
    (h : gs.nrows ≤ i ∨ gs.ncols ≤ j) : gs.cell i j = .pynone := by
  rcases h with h | h
  · have hnone : gs.iterRows[i]? = none :=
      List.getElem?_eq_none (by rw [gs.iterRows_length]; exact h)
    simp [GridSpec.cell, List.getD, hnone]
  · have hlen : (gs.iterRows[i]?.getD []).length ≤ j := by
      rcases Nat.lt_or_ge i gs.iterRows.length with hi | hi
      · rw [List.getElem?_eq_getElem hi]
        have hmem : gs.iterRows[i] ∈ gs.iterRows := gs.iterRows.getElem_mem hi
        simpa [gs.iterRows_row_length _ hmem] using h
      · rw [List.getElem?_eq_none hi]
        exact Nat.zero_le j
    simp [GridSpec.cell, List.getD, List.getElem?_eq_none hlen]

/-- Claim C10: an in-range scalar assignment changes only cell `(r, c)`:
the declared size is unchanged, and iteration yields the same value as
before at every other coordinate. -/
theorem claim10_scalar_assign_frame (gs : GridSpec) (r c : Nat) (obj : PyVal)
    (hr : r < gs.nrows) (hc : c < gs.ncols) :
    ∃ gs', gs.setitem (.scalar r, .scalar c) obj = .ok gs' ∧
      gs'.nrows = gs.nrows ∧ gs'.ncols = gs.ncols ∧
      (∀ i j, ¬(i = r ∧ j = c) → gs'.cell i j = gs.cell i j) := by
  refine ⟨⟨gs.nrows, gs.ncols, fun p => if p = (r, c) then some obj else gs.arrangement p⟩,
    setitem_scalar_eq gs r c obj hr hc, rfl, rfl, ?_⟩
  intro i j hne
  rcases Nat.lt_or_ge i gs.nrows with hi | hi
  · rcases Nat.lt_or_ge j gs.ncols with hj | hj
    · rw [GridSpec.cell_eq ⟨gs.nrows, gs.ncols, fun p => if p = (r, c) then some obj else gs.arrangement p⟩ i j hi hj,
        GridSpec.cell_eq gs i j hi hj]
      have : ¬((i, j) = (r, c)) := by
        simp only [Prod.mk.injEq]
        tauto
      simp [this]
    · rw [GridSpec.cell_oob ⟨gs.nrows, gs.ncols, fun p => if p = (r, c) then some obj else gs.arrangement p⟩ i j (Or.inr hj),
        GridSpec.cell_oob gs i j (Or.inr hj)]
  · rw [GridSpec.cell_oob ⟨gs.nrows, gs.ncols, fun p => if p = (r, c) then some obj else gs.arrangement p⟩ i j (Or.inl hi),
      GridSpec.cell_oob gs i j (Or.inl hi)]

/-- Witness for C10 at a 2 × 2 grid with one cell already set. -/
theorem claim10_witness :
    (0 < 2 ∧ 1 < 2) ∧
    ∃ gs', (GridSpec.mk 2 2 (fun p => if p = (1, 1) then some (.other 5) else none)).setitem
        (.scalar 0, .scalar 1) (.other 9) = .ok gs' ∧
      gs'.nrows = 2 ∧ gs'.ncols = 2 ∧
      (∀ i j, ¬(i = 0 ∧ j = 1) →
        gs'.cell i j = (GridSpec.mk 2 2 (fun p => if p = (1, 1) then some (.other 5) else none)).cell i j) :=
  ⟨by decide, claim10_scalar_assign_frame _ 0 1 (.other 9) (by decide) (by decide)⟩

/-- `Except.isOk` as a plain function of the embedding (`GridSpec` carries a
function so it has no decidable equality; success is still decidable). -/
def isOkB {α : Type} (e : Except PyErr α) : Bool :=
  match e with
  | .ok _ => true
  | .error _ => false

/-- Counterexample to C6 as stated: on a 2 × 2 grid the scalar assignment at
`(-1, 0)` succeeds (Python-style wrapping: the code adds `nrows` to a
negative index), although `0 ≤ -1` fails — so "succeeds if and only if
`0 ≤ r < nrows`" is false. -/
theorem claim6_counterexample :
    isOkB ((GridSpec.init 2 2).setitem (.scalar (-1), .scalar 0) (.other 7)) = true ∧
      ¬(0 ≤ (-1 : Int)) := by
  constructor
  · rfl
  · decide

theorem normKey_scalar_ok (len : Nat) (k : Int) (h1 : -(len : Int) ≤ k) (h2 : k < len) :
    normKey (.scalar k) len = .ok ((if k < 0 then k + len else k).toNat, none) := by
  simp only [normKey]
  by_cases hk : k < 0
  · rw [if_pos hk, if_neg (by omega)]
  · rw [if_neg hk, if_neg (by omega)]

theorem normKey_scalar_err (len : Nat) (k : Int) (h : k < -(len : Int) ∨ (len : Int) ≤ k) :
    normKey (.scalar k) len = .error (.indexError "index out of range") := by
  simp only [normKey]
  by_cases hk : k < 0
  · rw [if_pos hk, if_pos (by omega)]
  · rw [if_neg hk, if_pos (by omega)]

/-- Claim C6, amended: scalar grid coordinates are zero-based but wrap
Python-style, so assignment at scalar `(r, c)` succeeds if and only if
`-nrows ≤ r < nrows` and `-ncols ≤ c < ncols` (a negative index counting
from the end), and raises `IndexError` otherwise. -/
theorem claim6_amended_scalar_bounds (gs : GridSpec) (r c : Int) (obj : PyVal) :
    (isOkB (gs.setitem (.scalar r, .scalar c) obj) = true ↔
      (-(gs.nrows : Int) ≤ r ∧ r < gs.nrows ∧ -(gs.ncols : Int) ≤ c ∧ c < gs.ncols)) ∧
    (¬(-(gs.nrows : Int) ≤ r ∧ r < gs.nrows ∧ -(gs.ncols : Int) ≤ c ∧ c < gs.ncols) →
      gs.setitem (.scalar r, .scalar c) obj = .error (.indexError "index out of range")) := by
  by_cases hr : -(gs.nrows : Int) ≤ r ∧ r < gs.nrows
  · by_cases hc : -(gs.ncols : Int) ≤ c ∧ c < gs.ncols
    · constructor
      · constructor
        · intro _
          exact ⟨hr.1, hr.2, hc.1, hc.2⟩
        · intro _
          simp only [GridSpec.setitem, normKey_scalar_ok _ _ hr.1 hr.2,
            normKey_scalar_ok _ _ hc.1 hc.2]
          rfl
      · intro h
        exact absurd ⟨hr.1, hr.2, hc.1, hc.2⟩ h
    · have herr : gs.setitem (.scalar r, .scalar c) obj = .error (.indexError "index out of range") := by
        simp only [GridSpec.setitem, normKey_scalar_ok _ _ hr.1 hr.2,
          normKey_scalar_err gs.ncols c (by omega)]
      constructor
      · rw [herr]
        simp only [isOkB, false_iff]
        tauto
      · intro _
        exact herr
  · have herr : gs.setitem (.scalar r, .scalar c) obj = .error (.indexError "index out of range") := by
      simp only [GridSpec.setitem, normKey_scalar_err gs.nrows r (by omega)]
    constructor
    · rw [herr]
      simp only [isOkB, false_iff]
      tauto
    · intro _
      exact herr

/-- Witness for the amended C6: the `-1` row index on a 2 × 2 grid is
accepted because `-2 ≤ -1 < 2`. -/
theorem claim6_amended_witness :
    isOkB ((GridSpec.init 2 2).setitem (.scalar (-1), .scalar 0) (.other 3)) = true :=
  (claim6_amended_scalar_bounds (GridSpec.init 2 2) (-1) 0 (.other 3)).1.mpr (by decide)

/-- Is the Python value a list?  (`isinstance(x, list)`.) -/
def isPyList : PyVal → Bool
  | .list _ => true
  | _ => false

/-- Value the 2D-slice case of `__setitem__` stores for zip step `i`:
`obj[i][i]` when both subscripts are in range, `None` when either
`IndexError`s. -/
def zipFill (rows : List PyVal) (i : Nat) : PyVal :=
  match rows[i]? with
  | none => .pynone
  | some (.list rl) => rl[i]?.getD .pynone
  | some _ => .pynone

theorem assignLoop_ok (m : Nat × Nat → Option PyVal) (cells : List (Nat × Nat))
    (f : Nat × Nat → Except PyErr PyVal) (g : Nat × Nat → PyVal)
    (h : ∀ p ∈ cells, get_or_else (f p) .pynone = .ok (g p)) :
    ∃ m', assignLoop m cells f = .ok m' ∧
      (∀ p ∈ cells, m' p = some (g p)) ∧ (∀ p, p ∉ cells → m' p = m p) := by
  induction cells generalizing m with
  | nil => exact ⟨m, rfl, by simp, fun p _ => rfl⟩
  | cons c rest ih =>
    have hc := h c (List.mem_cons_self c rest)
    obtain ⟨m', hm', hin, hout⟩ :=
      ih (fun p => if p = c then some (g c) else m p) (fun p hp => h p (List.mem_cons_of_mem _ hp))
    refine ⟨m', ?_, ?_, ?_⟩
    · simp only [assignLoop, hc]
      exact hm'
    · intro p hp
      rcases List.mem_cons.mp hp with rfl | hp
      · by_cases hpr : p ∈ rest
        · exact hin p hpr
        · rw [hout p hpr]
          simp
      · exact hin p hp
    · intro p hp
      have hne : ¬(p = c) := fun h' => hp (by rw [h']; exact List.mem_cons_self c rest)
      rw [hout p (fun h' => hp (List.mem_cons_of_mem _ h')), if_neg hne]

theorem sliceBound_natCast (k d len : Nat) :
    sliceBound (some (k : Int)) d len = min k len := by
  simp only [sliceBound]
  rw [if_neg (by omega)]
  simp

/-- The cells of the positional zip of the two ranges. -/
theorem zip_range'_mem (r1 c1 a b : Nat) (p : Nat × Nat) :
    p ∈ List.zip (List.range' r1 a) (List.range' c1 b) ↔
      ∃ i, i < min a b ∧ p = (r1 + i, c1 + i) := by
  constructor
  · intro hp
    obtain ⟨i, hi, hget⟩ := List.mem_iff_getElem.mp hp
    have hlen : (List.zip (List.range' r1 a) (List.range' c1 b)).length = min a b := by
      simp [List.length_zip]
    refine ⟨i, by omega, ?_⟩
    rw [← hget]
    have hia : i < (List.range' r1 a).length := by simp; omega
    have hib : i < (List.range' c1 b).length := by simp; omega
    rw [List.getElem_zip]
    simp [List.getElem_range']
  · rintro ⟨i, hi, rfl⟩
    rw [List.mem_iff_getElem]
    refine ⟨i, by simp [List.length_zip]; omega, ?_⟩
    rw [List.getElem_zip]
    simp [List.getElem_range']

/-- Claim C5: assigning through slices in both axes (`gs[r1:r2, c1:c2] =
nested_list`) writes exactly the positionally paired cells `(r1+i, c1+i)`
for `i` below the shorter slice length — the ranges are zipped, not crossed —
storing `nested_list[i][i]`, or `None` when that subscript is out of range;
every other cell of the arrangement is untouched, and the size is unchanged. -/
theorem claim5_slice_pairs_zipped (gs : GridSpec) (r1 r2 c1 c2 : Nat)
    (rows : List PyVal) (hr12 : r1 ≤ r2) (hr2 : r2 ≤ gs.nrows)
    (hc12 : c1 ≤ c2) (hc2 : c2 ≤ gs.ncols) (hrows : rows.all isPyList = true) :
    ∃ gs', gs.setitem (.slice (some r1) (some r2), .slice (some c1) (some c2)) (.list rows) = .ok gs' ∧
      gs'.nrows = gs.nrows ∧ gs'.ncols = gs.ncols ∧
      (∀ i, i < min (r2 - r1) (c2 - c1) →
        gs'.arrangement (r1 + i, c1 + i) = some (zipFill rows i)) ∧
      (∀ p, (∀ i, i < min (r2 - r1) (c2 - c1) → p ≠ (r1 + i, c1 + i)) →
        gs'.arrangement p = gs.arrangement p) := by
  have hg : ∀ p ∈ List.zip (List.range' r1 (r2 - r1)) (List.range' c1 (c2 - c1)),
      get_or_else (pyGetItem2 (.list rows) (p.1 - r1) (p.2 - c1)) .pynone =
        .ok (zipFill rows (p.1 - r1)) := by
    intro p hp
    obtain ⟨i, hi, rfl⟩ := (zip_range'_mem r1 c1 _ _ p).mp hp
    simp only [Nat.add_sub_cancel_left]
    rcases hrow : rows[i]? with - | v
    · simp [pyGetItem2, pyGetItem, zipFill, hrow, get_or_else]
    · have hv : isPyList v = true :=
        List.all_eq_true.mp hrows v (List.getElem?_mem hrow)
      cases v with
      | pynone => simp [isPyList] at hv
      | dom d => simp [isPyList] at hv
      | gspec => simp [isPyList] at hv
      | other n => simp [isPyList] at hv
      | list rl =>
        rcases hcol : rl[i]? with - | x <;>
          simp [pyGetItem2, pyGetItem, zipFill, hrow, hcol, get_or_else]
  obtain ⟨m', hm', hin, hout⟩ := assignLoop_ok gs.arrangement _ _
    (fun p => zipFill rows (p.1 - r1)) hg
  have hset : gs.setitem (.slice (some r1) (some r2), .slice (some c1) (some c2)) (.list rows) =
      .ok ⟨gs.nrows, gs.ncols, m'⟩ := by
    simp only [GridSpec.setitem, normKey, sliceBound_natCast,
      Nat.min_eq_left (le_trans hr12 hr2), Nat.min_eq_left hr2,
      Nat.min_eq_left (le_trans hc12 hc2), Nat.min_eq_left hc2, hm']
  refine ⟨⟨gs.nrows, gs.ncols, m'⟩, hset, rfl, rfl, ?_, ?_⟩
  · intro i hi
    have := hin (r1 + i, c1 + i) ((zip_range'_mem r1 c1 _ _ _).mpr ⟨i, hi, rfl⟩)
    simpa using this
  · intro p hp
    refine hout p (fun hmem => ?_)
    obtain ⟨i, hi, rfl⟩ := (zip_range'_mem r1 c1 _ _ p).mp hmem
    exact hp i hi rfl

/-- Witness for C5: a 3 × 3 grid, `gs[0:2, 0:3] = [[a, b], [c]]`; the zip
writes `(0,0) ← a` and `(1,1) ← None` (since `[[a, b], [c]][1][1]` is out of
range) and nothing else. -/
theorem claim5_witness :
    (0 ≤ 2 ∧ 2 ≤ 3 ∧ 0 ≤ 3 ∧ 3 ≤ 3 ∧
      ([.list [.other 1, .other 2], .list [.other 3]] : List PyVal).all isPyList = true) ∧
    ∃ gs', (GridSpec.init 3 3).setitem (.slice (some 0) (some 2), .slice (some 0) (some 3))
        (.list [.list [.other 1, .other 2], .list [.other 3]]) = .ok gs' ∧
      gs'.nrows = 3 ∧ gs'.ncols = 3 ∧
      (∀ i, i < min (2 - 0) (3 - 0) →
        gs'.arrangement (0 + i, 0 + i) =
          some (zipFill [.list [.other 1, .other 2], .list [.other 3]] i)) ∧
      (∀ p, (∀ i, i < min (2 - 0) (3 - 0) → p ≠ (0 + i, 0 + i)) →
        gs'.arrangement p = (GridSpec.init 3 3).arrangement p) :=
  ⟨by decide, claim5_slice_pairs_zipped (GridSpec.init 3 3) 0 2 0 3
    [.list [.other 1, .other 2], .list [.other 3]]
    (by decide) (by decide) (by decide) (by decide) (by decide)⟩

/-- `isinstance(x, None.__class__)`, i.e. `x is None`. -/
def PyVal.is_pynone : PyVal → Bool
  | .pynone => true
  | _ => false

/-- The `sizing_mode` attribute every `LayoutDOM` carries. -/
def LayoutDOM.sizing_mode : LayoutDOM → Option String
  | .Plot _ _ _ _ _ sm => sm
  | .Widget _ sm => sm
  | .Row _ sm => sm
  | .Column _ sm => sm
  | .GridBox _ sm => sm
  | .ToolbarBox _ _ sm => sm

/-- `item.sizing_mode = sizing_mode`: in-place attribute write, modelled as a
shallow functional update of the node (children are untouched, exactly as in
Python). -/
def setSizingMode (d : LayoutDOM) (sm : Option String) : LayoutDOM :=
  match d with
  | .Plot i t tl w h _ => .Plot i t tl w h sm
  | .Widget i _ => .Widget i sm
  | .Row cs _ => .Row cs sm
  | .Column cs _ => .Column cs sm
  | .GridBox cs _ => .GridBox cs sm
  | .ToolbarBox t l _ => .ToolbarBox t l sm

/-- `_handle_children(*args, **kwargs)`: positional arguments together with a
non-`None` `children` keyword raise `ValueError`; otherwise a falsy `children`
is replaced by the canonical form of the positional arguments (a single list
argument stands for itself, a single `GridSpec` passes through, anything else
becomes `list(args)`). -/
def _handle_children (args : List PyVal) (children : PyVal) : Except PyErr PyVal :=
  if args.length > 0 && !children.is_pynone then
    .error (.valueError "children keyword cannot be used with positional arguments")
  else if pyFalsy children then
    match args with
    | [PyVal.list l] => .ok (.list l)
    | [PyVal.gspec] => .ok .gspec
    | _ => .ok (.list args)
  else .ok children

/-- The item loop shared by `row()` and `column()`: keep `LayoutDOM` items,
raise `ValueError` at the first item of any other type. -/
def checkLayoutItems (what : String) : List PyVal → Except PyErr (List LayoutDOM)
  | [] => .ok []
  | .dom d :: rest =>
    match checkLayoutItems what rest with
    | .error e => .error e
    | .ok cs => .ok (d :: cs)
  | _ :: _ => .error (.valueError ("Only LayoutDOM items can be inserted into a " ++ what))

/-- `row(*args, children=..., sizing_mode=...)`. -/
def row (args : List PyVal) (children : PyVal) (sizing_mode : Option String) :
    Except PyErr LayoutDOM :=
  match _handle_children args children with
  | .error e => .error e
  | .ok cv =>
    match pyIter cv with
    | .error e => .error e
    | .ok items =>
      match checkLayoutItems "row" items with
      | .error e => .error e
      | .ok cs => .ok (.Row cs sizing_mode)

/-- `column(*args, children=..., sizing_mode=...)`. -/
def column (args : List PyVal) (children : PyVal) (sizing_mode : Option String) :
    Except PyErr LayoutDOM :=
  match _handle_children args children with
  | .error e => .error e
  | .ok cv =>
    match pyIter cv with
    | .error e => .error e
    | .ok items =>
      match checkLayoutItems "column" items with
      | .error e => .error e
      | .ok cs => .ok (.Column cs sizing_mode)

mutual
/-- The loop body of `_create_grid` for one item at nesting depth `layer`
(`cgKids` is its loop over an iterable).  A nested list is handled by the
recursive `_create_grid(item, sizing_mode, layer+1)` call, whose body — build
the children, then wrap them in `column()` when `layer+1` is even and `row()`
when odd — is inlined here so that the recursion is structural; a `LayoutDOM`
gets its `sizing_mode` set and is kept; anything else raises `ValueError`. -/
def cgItem (sm : Option String) : PyVal → Nat → Except PyErr LayoutDOM
  | .list l, layer =>
    match cgKids sm l (layer + 1) with
    | .error e => .error e
    | .ok kids =>
      if (layer + 1) % 2 == 0 then column [] (.list (kids.map PyVal.dom)) sm
      else row [] (.list (kids.map PyVal.dom)) sm
  | .dom d, _ => .ok (setSizingMode d sm)
  | _, _ => .error (.valueError "Only LayoutDOM items can be inserted into a layout")
def cgKids (sm : Option String) : List PyVal → Nat → Except PyErr (List LayoutDOM)
  | [], _ => .ok []
  | item :: rest, layer =>
    match cgItem sm item layer with
    | .error e => .error e
    | .ok d =>
      match cgKids sm rest layer with
      | .error e => .error e
      | .ok ds => .ok (d :: ds)
end

/-- `_create_grid(iterable, sizing_mode, layer=0)`: build the processed child
list, then wrap it in `column()` at even depth and `row()` at odd depth. -/
def _create_grid (iterable : List PyVal) (sizing_mode : Option String) (layer : Nat) :
    Except PyErr LayoutDOM :=
  match cgKids sizing_mode iterable layer with
  | .error e => .error e
  | .ok kids =>
    if layer % 2 == 0 then column [] (.list (kids.map PyVal.dom)) sizing_mode
    else row [] (.list (kids.map PyVal.dom)) sizing_mode

/-- `layout(*args, children=..., sizing_mode=...)`: normalize children, then
`_create_grid(children, sizing_mode)`. -/
def layout (args : List PyVal) (children : PyVal) (sizing_mode : Option String) :
    Except PyErr LayoutDOM :=
  match _handle_children args children with
  | .error e => .error e
  | .ok cv =>
    match pyIter cv with
    | .error e => .error e
    | .ok items => _create_grid items sizing_mode 0

mutual
/-- A valid `layout` input: nested lists whose non-list items are all
`LayoutDOM` instances. -/
def validItem : PyVal → Bool
  | .dom _ => true
  | .list l => validList l
  | _ => false
def validList : List PyVal → Bool
  | [] => true
  | x :: xs => validItem x && validList xs
end

mutual
/-- The `LayoutDOM` leaves of a nested input list, left to right. -/
def itemLeaves : PyVal → List LayoutDOM
  | .dom d => [d]
  | .list l => listLeaves l
  | _ => []
def listLeaves : List PyVal → List LayoutDOM
  | [] => []
  | x :: xs => itemLeaves x ++ listLeaves xs
end

mutual
/-- The leaves of a tree produced from nested input `l`, read along the
shape of `l` (the input says where the leaf boundaries are — in Python leaves
keep their object identity): the tree must be a container whose children
pair up with `l`, leaf positions contributing the node of the tree and nested
lists recursing; `none` when the shapes disagree. -/
def leavesTop : List PyVal → LayoutDOM → Option (List LayoutDOM)
  | l, .Column cs _ => leavesKids l cs
  | l, .Row cs _ => leavesKids l cs
  | _, _ => none
def leavesKids : List PyVal → List LayoutDOM → Option (List LayoutDOM)
  | [], [] => some []
  | .dom _ :: xs, t :: ts =>
    match leavesKids xs ts with
    | none => none
    | some rest => some (t :: rest)
  | .list l :: xs, t :: ts =>
    match leavesTop l t with
    | none => none
    | some sub =>
      match leavesKids xs ts with
      | none => none
      | some rest => some (sub ++ rest)
  | _, _ => none
end

mutual
/-- Every node along the shape of the input — each generated container and
each leaf — carries sizing mode `sm`. -/
def modesTop (sm : Option String) : List PyVal → LayoutDOM → Bool
  | l, .Column cs sm2 => decide (sm2 = sm) && modesKids sm l cs
  | l, .Row cs sm2 => decide (sm2 = sm) && modesKids sm l cs
  | _, _ => false
def modesKids (sm : Option String) : List PyVal → List LayoutDOM → Bool
  | [], [] => true
  | .dom _ :: xs, t :: ts => decide (t.sizing_mode = sm) && modesKids sm xs ts
  | .list l :: xs, t :: ts => modesTop sm l t && modesKids sm xs ts
  | _, _ => false
end

mutual
/-- The tree wraps the input with a `Column` at even depth and a `Row` at
odd depth, recursively (leaves unconstrained). -/
def altWrapTop (l : List PyVal) (t : LayoutDOM) (layer : Nat) : Bool :=
  match t with
  | .Column cs _ => layer % 2 == 0 && altWrapKids l cs layer
  | .Row cs _ => !(layer % 2 == 0) && altWrapKids l cs layer
  | _ => false
def altWrapKids : List PyVal → List LayoutDOM → Nat → Bool
  | [], [], _ => true
  | .dom _ :: xs, _ :: ts, layer => altWrapKids xs ts layer
  | .list l :: xs, t :: ts, layer => altWrapTop l t (layer + 1) && altWrapKids xs ts layer
  | _, _, _ => false
end

mutual
/-- The tree `_create_grid` builds from valid input (proved below): leaves
with their sizing mode set, in place, containers alternating by depth. -/
def mirrorItem (sm : Option String) : PyVal → Nat → LayoutDOM
  | .list l, layer =>
    if (layer + 1) % 2 == 0 then .Column (mirrorList sm l (layer + 1)) sm
    else .Row (mirrorList sm l (layer + 1)) sm
  | .dom d, _ => setSizingMode d sm
  | _, _ => .Widget 0 none
def mirrorList (sm : Option String) : List PyVal → Nat → List LayoutDOM
  | [], _ => []
  | x :: xs, layer => mirrorItem sm x layer :: mirrorList sm xs layer
end

/-- What `_create_grid` returns on valid input at depth `layer`. -/
def mirrorTop (sm : Option String) (l : List PyVal) (layer : Nat) : LayoutDOM :=
  if layer % 2 == 0 then .Column (mirrorList sm l layer) sm
  else .Row (mirrorList sm l layer) sm

/-- Member-style induction over the nested `PyVal` tree. -/
theorem pyval_ind (P : PyVal → Prop)
    (h1 : P .pynone) (h2 : ∀ d, P (.dom d))
    (h3 : ∀ l, (∀ x ∈ l, P x) → P (.list l))
    (h4 : P .gspec) (h5 : ∀ n, P (.other n)) : ∀ v, P v :=
  @PyVal.rec P (fun l => ∀ x ∈ l, P x) h1 h2 h3 h4 h5
    (fun x hx => absurd hx (List.not_mem_nil x))
    (fun hd tl hhd htl x hx => by
      rcases List.mem_cons.mp hx with rfl | hx
      · exact hhd
      · exact htl x hx)

theorem checkLayoutItems_doms (what : String) (kids : List LayoutDOM) :
    checkLayoutItems what (kids.map PyVal.dom) = .ok kids := by
  induction kids with
  | nil => rfl
  | cons d rest ih => simp [checkLayoutItems, ih]

theorem column_doms (kids : List LayoutDOM) (sm : Option String) :
    column [] (.list (kids.map PyVal.dom)) sm = .ok (.Column kids sm) := by
  cases kids with
  | nil => rfl
  | cons d rest =>
    have h := checkLayoutItems_doms "column" (d :: rest)
    simp only [List.map_cons] at h
    simp [column, _handle_children, pyFalsy, PyVal.is_pynone, pyIter, h]

theorem row_doms (kids : List LayoutDOM) (sm : Option String) :
    row [] (.list (kids.map PyVal.dom)) sm = .ok (.Row kids sm) := by
  cases kids with
  | nil => rfl
  | cons d rest =>
    have h := checkLayoutItems_doms "row" (d :: rest)
    simp only [List.map_cons] at h
    simp [row, _handle_children, pyFalsy, PyVal.is_pynone, pyIter, h]

theorem validList_cons {x : PyVal} {xs : List PyVal} (h : validList (x :: xs) = true) :
    validItem x = true ∧ validList xs = true := by
  simpa [validList, Bool.and_eq_true] using h

theorem cgKids_of_ih (sm : Option String) (layer : Nat) :
    ∀ l : List PyVal,
      (∀ x ∈ l, validItem x = true → ∀ ly, cgItem sm x ly = .ok (mirrorItem sm x ly)) →
      validList l = true → cgKids sm l layer = .ok (mirrorList sm l layer) := by
  intro l
  induction l with
  | nil => intro _ _; rfl
  | cons x xs ihl =>
    intro ih hv
    obtain ⟨hx, hxs⟩ := validList_cons hv
    have h1 := ih x (List.mem_cons_self x xs) hx layer
    have h2 := ihl (fun y hy => ih y (List.mem_cons_of_mem _ hy)) hxs
    simp [cgKids, mirrorList, h1, h2]

theorem cgItem_mirror (sm : Option String) :
    ∀ x, validItem x = true → ∀ layer, cgItem sm x layer = .ok (mirrorItem sm x layer) := by
  refine pyval_ind _ ?_ ?_ ?_ ?_ ?_
  · intro h
    simp [validItem] at h
  · intro d _ layer
    rfl
  · intro l ih hv layer
    have hl : validList l = true := by simpa [validItem] using hv
    have hkids := cgKids_of_ih sm (layer + 1) l ih hl
    simp only [cgItem, hkids]
    cases hpar : (layer + 1) % 2 == 0 <;>
      simp [mirrorItem, hpar, column_doms, row_doms]
  · intro h
    simp [validItem] at h
  · intro n h
    simp [validItem] at h

theorem cgKids_mirror (sm : Option String) (l : List PyVal) (hv : validList l = true)
    (layer : Nat) : cgKids sm l layer = .ok (mirrorList sm l layer) :=
  cgKids_of_ih sm layer l (fun x _ => cgItem_mirror sm x) hv

theorem _create_grid_mirror (l : List PyVal) (sm : Option String)
    (hv : validList l = true) (layer : Nat) :
    _create_grid l sm layer = .ok (mirrorTop sm l layer) := by
  simp only [_create_grid, cgKids_mirror sm l hv layer, mirrorTop]
  cases hpar : layer % 2 == 0 <;> simp [hpar, column_doms, row_doms]

theorem layout_list (l : List PyVal) (sm : Option String) :
    layout [] (.list l) sm = _create_grid l sm 0 := by
  cases l with
  | nil => rfl
  | cons x xs => rfl

theorem sizing_mode_setSizingMode (d : LayoutDOM) (sm : Option String) :
    (setSizingMode d sm).sizing_mode = sm := by
  cases d <;> rfl

theorem altWrapKids_of_ih (sm : Option String) (layer : Nat) :
    ∀ l : List PyVal,
      (∀ x ∈ l, ∀ l', x = .list l' → validList l' = true →
        ∀ ly, altWrapTop l' (mirrorTop sm l' ly) ly = true) →
      validList l = true → altWrapKids l (mirrorList sm l layer) layer = true := by
  intro l
  induction l with
  | nil => intro _ _; rfl
  | cons x xs ihl =>
    intro ih hv
    obtain ⟨hx, hxs⟩ := validList_cons hv
    have hrest := ihl (fun y hy => ih y (List.mem_cons_of_mem _ hy)) hxs
    cases x with
    | dom d => simpa [mirrorList, mirrorItem, altWrapKids] using hrest
    | list l' =>
      have h1 := ih (.list l') (List.mem_cons_self _ _) l' rfl
        (by simpa [validItem] using hx) (layer + 1)
      have hmir : mirrorItem sm (.list l') layer = mirrorTop sm l' (layer + 1) := rfl
      simp [mirrorList, hmir, altWrapKids, h1, hrest]
    | pynone => simp [validItem] at hx
    | gspec => simp [validItem] at hx
    | other n => simp [validItem] at hx

theorem altWrapTop_mirror_aux (sm : Option String) :
    ∀ x : PyVal, ∀ l', x = .list l' → validList l' = true →
      ∀ layer, altWrapTop l' (mirrorTop sm l' layer) layer = true := by
  refine pyval_ind _ ?_ ?_ ?_ ?_ ?_
  · intro l' h
    exact absurd h (by simp)
  · intro d l' h
    exact absurd h (by simp)
  · intro l ih l' heq hv layer
    have hl : l' = l := by injection heq with h; exact h.symm
    subst hl
    have hk := altWrapKids_of_ih sm layer l' ih hv
    cases hpar : layer % 2 == 0 <;> simp [mirrorTop, altWrapTop, hpar, hk]
  · intro l' h
    exact absurd h (by simp)
  · intro n l' h
    exact absurd h (by simp)

theorem altWrapTop_mirror (sm : Option String) (l : List PyVal)
    (hv : validList l = true) (layer : Nat) :
    altWrapTop l (mirrorTop sm l layer) layer = true :=
  altWrapTop_mirror_aux sm (.list l) l rfl hv layer

theorem leavesKids_of_ih (sm : Option String) (layer : Nat) :
    ∀ l : List PyVal,
      (∀ x ∈ l, ∀ l', x = .list l' → validList l' = true →
        ∀ ly, leavesTop l' (mirrorTop sm l' ly) =
          some ((listLeaves l').map fun d => setSizingMode d sm)) →
      validList l = true →
      leavesKids l (mirrorList sm l layer) =
        some ((listLeaves l).map fun d => setSizingMode d sm) := by
  intro l
  induction l with
  | nil => intro _ _; rfl
  | cons x xs ihl =>
    intro ih hv
    obtain ⟨hx, hxs⟩ := validList_cons hv
    have hrest := ihl (fun y hy => ih y (List.mem_cons_of_mem _ hy)) hxs
    cases x with
    | dom d =>
      simp [mirrorList, mirrorItem, leavesKids, hrest, itemLeaves, listLeaves]
    | list l' =>
      have h1 := ih (.list l') (List.mem_cons_self _ _) l' rfl
        (by simpa [validItem] using hx) (layer + 1)
      have hmir : mirrorItem sm (.list l') layer = mirrorTop sm l' (layer + 1) := rfl
      simp [mirrorList, hmir, leavesKids, h1, hrest, itemLeaves, listLeaves]
    | pynone => simp [validItem] at hx
    | gspec => simp [validItem] at hx
    | other n => simp [validItem] at hx

theorem leavesTop_mirror_aux (sm : Option String) :
    ∀ x : PyVal, ∀ l', x = .list l' → validList l' = true →
      ∀ layer, leavesTop l' (mirrorTop sm l' layer) =
        some ((listLeaves l').map fun d => setSizingMode d sm) := by
  refine pyval_ind _ ?_ ?_ ?_ ?_ ?_
  · intro l' h
    exact absurd h (by simp)
  · intro d l' h
    exact absurd h (by simp)
  · intro l ih l' heq hv layer
    have hl : l' = l := by injection heq with h; exact h.symm
    subst hl
    have hk := leavesKids_of_ih sm layer l' ih hv
    cases hpar : layer % 2 == 0 <;> simp [mirrorTop, leavesTop, hpar, hk]
  · intro l' h
    exact absurd h (by simp)
  · intro n l' h
    exact absurd h (by simp)

theorem leavesTop_mirror (sm : Option String) (l : List PyVal)
    (hv : validList l = true) (layer : Nat) :
    leavesTop l (mirrorTop sm l layer) =
      some ((listLeaves l).map fun d => setSizingMode d sm) :=
  leavesTop_mirror_aux sm (.list l) l rfl hv layer

theorem modesKids_of_ih (sm : Option String) (layer : Nat) :
    ∀ l : List PyVal,
      (∀ x ∈ l, ∀ l', x = .list l' → validList l' = true →
        ∀ ly, modesTop sm l' (mirrorTop sm l' ly) = true) →
      validList l = true → modesKids sm l (mirrorList sm l layer) = true := by
  intro l
  induction l with
  | nil => intro _ _; rfl
  | cons x xs ihl =>
    intro ih hv
    obtain ⟨hx, hxs⟩ := validList_cons hv
    have hrest := ihl (fun y hy => ih y (List.mem_cons_of_mem _ hy)) hxs
    cases x with
    | dom d =>
      simp [mirrorList, mirrorItem, modesKids, hrest, sizing_mode_setSizingMode]
    | list l' =>
      have h1 := ih (.list l') (List.mem_cons_self _ _) l' rfl
        (by simpa [validItem] using hx) (layer + 1)
      have hmir : mirrorItem sm (.list l') layer = mirrorTop sm l' (layer + 1) := rfl
      simp [mirrorList, hmir, modesKids, h1, hrest]
    | pynone => simp [validItem] at hx
    | gspec => simp [validItem] at hx
    | other n => simp [validItem] at hx

theorem modesTop_mirror_aux (sm : Option String) :
    ∀ x : PyVal, ∀ l', x = .list l' → validList l' = true →
      ∀ layer, modesTop sm l' (mirrorTop sm l' layer) = true := by
  refine pyval_ind _ ?_ ?_ ?_ ?_ ?_
  · intro l' h
    exact absurd h (by simp)
  · intro d l' h
    exact absurd h (by simp)
  · intro l ih l' heq hv layer
    have hl : l' = l := by injection heq with h; exact h.symm
    subst hl
    have hk := modesKids_of_ih sm layer l' ih hv
    cases hpar : layer % 2 == 0 <;> simp [mirrorTop, modesTop, hpar, hk]
  · intro l' h
    exact absurd h (by simp)
  · intro n l' h
    exact absurd h (by simp)

theorem modesTop_mirror (sm : Option String) (l : List PyVal)
    (hv : validList l = true) (layer : Nat) :
    modesTop sm l (mirrorTop sm l layer) = true :=
  modesTop_mirror_aux sm (.list l) l rfl hv layer

/-- Claim C1: for every valid nested list of `LayoutDOM` elements and every
sizing mode, `layout` succeeds and the returned tree has exactly the input's
`LayoutDOM` leaves, in order (each being the input object with its
`sizing_mode` attribute set, as the in-place Python mutation leaves it), and
every node of the returned tree — every leaf and every generated container —
carries the specified sizing mode. -/
theorem claim1_leaves_in_order_modes (children : List PyVal) (sm : Option String)
    (h : validList children = true) :
    ∃ t, layout [] (.list children) sm = .ok t ∧
      leavesTop children t = some ((listLeaves children).map fun d => setSizingMode d sm) ∧
      modesTop sm children t = true := by
  refine ⟨mirrorTop sm children 0, ?_, ?_, ?_⟩
  · rw [layout_list]
    exact _create_grid_mirror children sm h 0
  · exact leavesTop_mirror sm children h 0
  · exact modesTop_mirror sm children h 0

/-- Witness for C1: `layout([w1, [w2, w3]], sizing_mode="fixed")`. -/
theorem claim1_witness :
    validList [.dom (.Widget 1 (some "scale_width")),
      .list [.dom (.Widget 2 none), .dom (.Widget 3 none)]] = true ∧
    ∃ t, layout []
        (.list [.dom (.Widget 1 (some "scale_width")),
          .list [.dom (.Widget 2 none), .dom (.Widget 3 none)]]) (some "fixed") = .ok t ∧
      leavesTop [.dom (.Widget 1 (some "scale_width")),
          .list [.dom (.Widget 2 none), .dom (.Widget 3 none)]] t =
        some ((listLeaves [.dom (.Widget 1 (some "scale_width")),
          .list [.dom (.Widget 2 none), .dom (.Widget 3 none)]]).map
            fun d => setSizingMode d (some "fixed")) ∧
      modesTop (some "fixed") [.dom (.Widget 1 (some "scale_width")),
        .list [.dom (.Widget 2 none), .dom (.Widget 3 none)]] t = true :=
  ⟨rfl, claim1_leaves_in_order_modes _ (some "fixed") rfl⟩

/-- Claim C4: for every valid nested list, each list at even nesting depth is
wrapped in a `Column` and each list at odd depth in a `Row` (the top level
being depth 0), so a two-level nested list becomes a column of rows. -/
theorem claim4_alternating_wrap (children : List PyVal) (sm : Option String)
    (h : validList children = true) :
    ∃ t, layout [] (.list children) sm = .ok t ∧ altWrapTop children t 0 = true := by
  refine ⟨mirrorTop sm children 0, ?_, altWrapTop_mirror sm children h 0⟩
  rw [layout_list]
  exact _create_grid_mirror children sm h 0

/-- Witness for C4: a two-level nested list yields a column of rows. -/
theorem claim4_witness :
    validList [.list [.dom (.Widget 1 none), .dom (.Widget 2 none)],
      .list [.dom (.Widget 3 none)]] = true ∧
    ∃ t, layout []
        (.list [.list [.dom (.Widget 1 none), .dom (.Widget 2 none)],
          .list [.dom (.Widget 3 none)]]) none = .ok t ∧
      altWrapTop [.list [.dom (.Widget 1 none), .dom (.Widget 2 none)],
        .list [.dom (.Widget 3 none)]] t 0 = true :=
  ⟨rfl, claim4_alternating_wrap _ none rfl⟩

/-- Claim C9: the children-normalizing builders (`row`, `column`, `layout`)
raise `ValueError` whenever at least one positional child is supplied
together with a non-`None` `children` keyword; with only one of the two
forms, `_handle_children` produces the canonical ordered child list
(a lone positional list stands for itself, a lone positional `GridSpec`
passes through, other positional forms become `list(args)`, and a truthy
`children` keyword is returned as given). -/
theorem claim9_children_normalizer (args : List PyVal) (children : PyVal)
    (sm : Option String) :
    (args ≠ [] → children ≠ .pynone →
      row args children sm =
        .error (.valueError "children keyword cannot be used with positional arguments") ∧
      column args children sm =
        .error (.valueError "children keyword cannot be used with positional arguments") ∧
      layout args children sm =
        .error (.valueError "children keyword cannot be used with positional arguments")) ∧
    (children = .pynone →
      _handle_children args children = .ok (match args with
        | [PyVal.list l] => .list l
        | [PyVal.gspec] => .gspec
        | _ => .list args)) ∧
    (args = [] → pyFalsy children = false → _handle_children args children = .ok children) := by
  refine ⟨?_, ?_, ?_⟩
  · intro hargs hch
    have hlen : (decide (args.length > 0)) = true := by
      cases args with
      | nil => exact absurd rfl hargs
      | cons a l => simp
    have hnone : children.is_pynone = false := by
      cases children <;> simp_all [PyVal.is_pynone]
    have herr : _handle_children args children =
        .error (.valueError "children keyword cannot be used with positional arguments") := by
      simp [_handle_children, hlen, hnone]
    exact ⟨by simp [row, herr], by simp [column, herr], by simp [layout, herr]⟩
  · intro h
    subst h
    rcases args with - | ⟨a, rest⟩
    · rfl
    · rcases rest with - | ⟨b, t⟩
      · cases a <;> rfl
      · cases a <;> rfl
  · intro h hfal
    subst h
    simp [_handle_children, hfal]

/-- Witness for C9: mixing one positional child with a `children` keyword. -/
theorem claim9_witness :
    row [.dom (.Widget 0 none)] (.list [.dom (.Widget 1 none)]) none =
      .error (.valueError "children keyword cannot be used with positional arguments") ∧
    _handle_children [.list [.dom (.Widget 2 none)]] .pynone =
      .ok (.list [.dom (.Widget 2 none)]) :=
  ⟨((claim9_children_normalizer [.dom (.Widget 0 none)] (.list [.dom (.Widget 1 none)]) none).1
      (by simp) (by simp)).1,
    (claim9_children_normalizer [.list [.dom (.Widget 2 none)]] .pynone none).2.1 rfl⟩

/-- Python truthiness of the `toolbar_location` argument (`None` or the empty
string is falsy). -/
def pyTruthyStr : Option String → Bool
  | none => false
  | some s => !(s == "")

/-- Python truthiness of the `ncols` argument (`if ncols:`). -/
def pyTruthyInt : Option Int → Bool
  | none => false
  | some n => !(n == 0)

/-- Modelled from the spec: the `Location` enum imported from `core.enums`
(not part of this snapshot) — a toolbar can be placed `above`, `below`,
`left` or `right`; `hasattr(Location, s)` tests membership. -/
def hasattrLocation (s : String) : Bool :=
  s == "above" || s == "below" || s == "left" || s == "right"

/-- `plot.toolbar.tools` — the own tool list of a plot (`Plot` is imported from a
module outside this snapshot; modelled from the toolbar proxy of the spec, which
"aggregates tool references collected from child plots"). -/
def LayoutDOM.toolbarTools : LayoutDOM → List Nat
  | .Plot _ t _ _ _ _ => t
  | _ => []

mutual
/-- Modelled from the spec: `item.select(dict(type=Plot))` — all descendant
`Plot` nodes of a layout tree, here in pre-order (the spec only requires
collecting the tools of every descendant plot). -/
def select : LayoutDOM → List LayoutDOM
  | p@(.Plot _ _ _ _ _ _) => [p]
  | .Widget _ _ => []
  | .Row cs _ => selectL cs
  | .Column cs _ => selectL cs
  | .GridBox cs _ => selectG cs
  | .ToolbarBox _ _ _ => []
def selectL : List LayoutDOM → List LayoutDOM
  | [] => []
  | c :: cs => select c ++ selectL cs
def selectG : List (LayoutDOM × Nat × Nat) → List LayoutDOM
  | [] => []
  | c :: cs => select c.1 ++ selectG cs
end

mutual
/-- The loop `for plot in item.select(dict(type=Plot)): plot.toolbar_location
= None`, functionally: the `toolbar_location` of every descendant plot becomes
`None`. -/
def detachPlotToolbars : LayoutDOM → LayoutDOM
  | .Plot i t _ w h sm => .Plot i t none w h sm
  | .Widget i sm => .Widget i sm
  | .Row cs sm => .Row (detachL cs) sm
  | .Column cs sm => .Column (detachL cs) sm
  | .GridBox cs sm => .GridBox (detachG cs) sm
  | .ToolbarBox t l sm => .ToolbarBox t l sm
def detachL : List LayoutDOM → List LayoutDOM
  | [] => []
  | c :: cs => detachPlotToolbars c :: detachL cs
def detachG : List (LayoutDOM × Nat × Nat) → List (LayoutDOM × Nat × Nat)
  | [] => []
  | c :: cs => (detachPlotToolbars c.1, c.2.1, c.2.2) :: detachG cs
end

/-- `if isinstance(item, Plot): item.plot_width = plot_width ...` — the
optional per-plot size overrides, applied to the item itself only. -/
def applySize (pw ph : Option Nat) : LayoutDOM → LayoutDOM
  | .Plot i t tl w h sm => .Plot i t tl (pw.getD w) (ph.getD h) sm
  | d => d

/-- `_chunks(l, ncols)` unrolled with `l.length` as fuel: successive
`ncols`-sized slices of `l`. -/
def chunkAux (n : Nat) : Nat → List PyVal → List PyVal
  | 0, _ => []
  | _ + 1, [] => []
  | fuel + 1, l => .list (l.take n) :: chunkAux n fuel (l.drop n)

/-- `list(_chunks(l, ncols))`.  A non-positive `ncols` gives an empty range
in Python (`ncols = 0` is unreachable: `if ncols:` is false). -/
def _chunks (l : List PyVal) (ncols : Int) : List PyVal :=
  if ncols ≤ 0 then [] else chunkAux ncols.toNat l.length l

/-- The inner loop of `gridplot` over one row: `None` entries are skipped
(the `enumerate` index still advances), a `LayoutDOM` item has its descendant
plot tools collected and toolbars detached when `merge_tools` is set, gets
the size overrides if it is a `Plot`, and is appended as `(item, y, x)`;
anything else raises `ValueError`. -/
def gridRowStep (merge_tools : Bool) (pw ph : Option Nat) (y : Nat) :
    List PyVal → Nat → Except PyErr (List Nat × List (LayoutDOM × Nat × Nat))
  | [], _ => .ok ([], [])
  | .pynone :: rest, x => gridRowStep merge_tools pw ph y rest (x + 1)
  | .dom item :: rest, x =>
    let tools := if merge_tools then (select item).flatMap LayoutDOM.toolbarTools else []
    let item1 := if merge_tools then detachPlotToolbars item else item
    let item2 := applySize pw ph item1
    match gridRowStep merge_tools pw ph y rest (x + 1) with
    | .error e => .error e
    | .ok (ts, its) => .ok (tools ++ ts, (item2, y, x) :: its)
  | _ :: _, _ => .error (.valueError "Only LayoutDOM items can be inserted into a grid")

/-- The outer loop of `gridplot` over the rows (each row must iterate, else
`TypeError`), accumulating tools and `(item, y, x)` triples in order. -/
def gridRows (merge_tools : Bool) (pw ph : Option Nat) :
    List PyVal → Nat → Except PyErr (List Nat × List (LayoutDOM × Nat × Nat))
  | [], _ => .ok ([], [])
  | rowv :: rest, y =>
    match pyIter rowv with
    | .error e => .error e
    | .ok items =>
      match gridRowStep merge_tools pw ph y items 0 with
      | .error e => .error e
      | .ok (ts, its) =>
        match gridRows merge_tools pw ph rest (y + 1) with
        | .error e => .error e
        | .ok (ts2, its2) => .ok (ts ++ ts2, its ++ its2)

/-- The returns at the end of `gridplot`: a bare `GridBox` when no toolbar is
requested, else the grid (no sizing mode) beside a `ToolbarBox` holding the
proxy toolbar with the merged tools, wrapped in a `Column` or `Row` by
location.  (`ProxyToolbar` and its `toolbar_options` are modelled as the
tool list the box carries; Python falls off the end — returns `None` — for a
location that is none of the four, which validation makes unreachable.) -/
def gridAssemble (tools : List Nat) (items : List (LayoutDOM × Nat × Nat))
    (sizing_mode : Option String) (toolbar_location : Option String)
    (merge_tools : Bool) : PyVal :=
  if !merge_tools || !pyTruthyStr toolbar_location then .dom (.GridBox items sizing_mode)
  else
    let grid := LayoutDOM.GridBox items none
    let toolbar := LayoutDOM.ToolbarBox tools (toolbar_location.getD "") none
    if toolbar_location == some "above" then .dom (.Column [toolbar, grid] sizing_mode)
    else if toolbar_location == some "below" then .dom (.Column [grid, toolbar] sizing_mode)
    else if toolbar_location == some "left" then .dom (.Row [toolbar, grid] sizing_mode)
    else if toolbar_location == some "right" then .dom (.Row [grid, toolbar] sizing_mode)
    else .pynone

/-- `gridplot(children, sizing_mode, toolbar_location, ncols, plot_width,
plot_height, toolbar_options, merge_tools)` (`toolbar_options` modelled as
absent): validate the toolbar location, normalize children, reject nested
lists when a truthy `ncols` is given (else chunk), default falsy children to
`[]`, run the grid loop, and assemble the result. -/
def gridplot (children : PyVal) (sizing_mode : Option String)
    (toolbar_location : Option String) (ncols : Option Int)
    (plot_width plot_height : Option Nat) (merge_tools : Bool) :
    Except PyErr PyVal :=
  if pyTruthyStr toolbar_location && !hasattrLocation (toolbar_location.getD "") then
    .error (.valueError "Invalid value of toolbar_location")
  else
    match _handle_children [] children with
    | .error e => .error e
    | .ok cv =>
      match (if pyTruthyInt ncols then
          match pyIter cv with
          | .error e => .error e
          | .ok l =>
            if l.any isPyList then
              .error (.valueError "Cannot provide a nested list when using ncols")
            else .ok (PyVal.list (_chunks l (ncols.getD 0)))
        else .ok cv : Except PyErr PyVal) with
      | .error e => .error e
      | .ok cv2 =>
        match (if pyFalsy cv2 then .ok ([] : List PyVal) else pyIter cv2 :
            Except PyErr (List PyVal)) with
        | .error e => .error e
        | .ok rows =>
          match gridRows merge_tools plot_width plot_height rows 0 with
          | .error e => .error e
          | .ok (tools, items) =>
            .ok (gridAssemble tools items sizing_mode toolbar_location merge_tools)

/-- A value `gridplot` accepts inside a row: `None` or a `LayoutDOM`. -/
def gridItemOk : PyVal → Bool
  | .pynone => true
  | .dom _ => true
  | _ => false

/-- A `Plot` node whose own toolbar is detached (`toolbar_location is None`);
trivially true of non-plots. -/
def plotDetachedNode : LayoutDOM → Bool
  | .Plot _ _ tl _ _ _ => tl.isNone
  | _ => true

/-- Every descendant plot of the tree has its toolbar detached. -/
def plotsDetached (d : LayoutDOM) : Bool :=
  (select d).all plotDetachedNode

mutual
/-- The tree contains no `ToolbarBox` node. -/
def toolbarFree : LayoutDOM → Bool
  | .ToolbarBox _ _ _ => false
  | .Plot _ _ _ _ _ _ => true
  | .Widget _ _ => true
  | .Row cs _ => tfL cs
  | .Column cs _ => tfL cs
  | .GridBox cs _ => tfG cs
def tfL : List LayoutDOM → Bool
  | [] => true
  | c :: cs => toolbarFree c && tfL cs
def tfG : List (LayoutDOM × Nat × Nat) → Bool
  | [] => true
  | c :: cs => toolbarFree c.1 && tfG cs
end

mutual
/-- The tool lists of all `ToolbarBox` nodes of the tree, in pre-order. -/
def collectToolbars : LayoutDOM → List (List Nat)
  | .ToolbarBox t _ _ => [t]
  | .Plot _ _ _ _ _ _ => []
  | .Widget _ _ => []
  | .Row cs _ => ctL cs
  | .Column cs _ => ctL cs
  | .GridBox cs _ => ctG cs
def ctL : List LayoutDOM → List (List Nat)
  | [] => []
  | c :: cs => collectToolbars c ++ ctL cs
def ctG : List (LayoutDOM × Nat × Nat) → List (List Nat)
  | [] => []
  | c :: cs => collectToolbars c.1 ++ ctG cs
end

/-- All descendant plots of the `LayoutDOM` items of one grid row, in order. -/
def rowPlots (r : List PyVal) : List LayoutDOM :=
  r.flatMap fun x =>
    match x with
    | .dom d => select d
    | _ => []

/-- All descendant plots of a whole grid of rows, in order. -/
def gridPlots (rows : List (List PyVal)) : List LayoutDOM :=
  rows.flatMap rowPlots

/-- Member-style induction over the nested `LayoutDOM` tree. -/
theorem layoutdom_ind (P : LayoutDOM → Prop)
    (h1 : ∀ i t tl w h sm, P (.Plot i t tl w h sm))
    (h2 : ∀ i sm, P (.Widget i sm))
    (h3 : ∀ cs sm, (∀ c ∈ cs, P c) → P (.Row cs sm))
    (h4 : ∀ cs sm, (∀ c ∈ cs, P c) → P (.Column cs sm))
    (h5 : ∀ cs sm, (∀ c ∈ cs, P c.1) → P (.GridBox cs sm))
    (h6 : ∀ t l sm, P (.ToolbarBox t l sm)) : ∀ d, P d :=
  @LayoutDOM.rec P (fun cs => ∀ c ∈ cs, P c) (fun cs => ∀ c ∈ cs, P c.1)
    (fun c => P c.1) h1 h2 h3 h4 h5 h6
    (fun c hc => absurd hc (List.not_mem_nil c))
    (fun hd tl hhd htl c hc => by
      rcases List.mem_cons.mp hc with rfl | hc
      · exact hhd
      · exact htl c hc)
    (fun c hc => absurd hc (List.not_mem_nil c))
    (fun hd tl hhd htl c hc => by
      rcases List.mem_cons.mp hc with rfl | hc
      · exact hhd
      · exact htl c hc)
    (fun fst snd h => h)

theorem selectL_eq : ∀ cs : List LayoutDOM, selectL cs = cs.flatMap select := by
  intro cs
  induction cs with
  | nil => rfl
  | cons c rest ih => simp [selectL, ih]

theorem selectG_eq : ∀ cs : List (LayoutDOM × Nat × Nat),
    selectG cs = cs.flatMap fun c => select c.1 := by
  intro cs
  induction cs with
  | nil => rfl
  | cons c rest ih => simp [selectG, ih]

theorem ctL_eq : ∀ cs : List LayoutDOM, ctL cs = cs.flatMap collectToolbars := by
  intro cs
  induction cs with
  | nil => rfl
  | cons c rest ih => simp [ctL, ih]

theorem ctG_eq : ∀ cs : List (LayoutDOM × Nat × Nat),
    ctG cs = cs.flatMap fun c => collectToolbars c.1 := by
  intro cs
  induction cs with
  | nil => rfl
  | cons c rest ih => simp [ctG, ih]

theorem detachL_eq : ∀ cs : List LayoutDOM, detachL cs = cs.map detachPlotToolbars := by
  intro cs
  induction cs with
  | nil => rfl
  | cons c rest ih => simp [detachL, ih]

theorem detachG_eq : ∀ cs : List (LayoutDOM × Nat × Nat),
    detachG cs = cs.map fun c => (detachPlotToolbars c.1, c.2.1, c.2.2) := by
  intro cs
  induction cs with
  | nil => rfl
  | cons c rest ih => simp [detachG, ih]

/-- After `detachPlotToolbars`, every descendant plot is detached. -/
theorem detach_detached : ∀ d, plotsDetached (detachPlotToolbars d) = true := by
  refine layoutdom_ind _ ?_ ?_ ?_ ?_ ?_ ?_
  · intro i t tl w h sm
    rfl
  · intro i sm
    rfl
  · intro cs sm ih
    simp only [plotsDetached, detachPlotToolbars, select, selectL_eq, detachL_eq,
      List.all_eq_true]
    intro p hp
    rw [List.mem_flatMap] at hp
    obtain ⟨c, hc, hpc⟩ := hp
    rw [List.mem_map] at hc
    obtain ⟨a, ha, rfl⟩ := hc
    have := ih a ha
    simp only [plotsDetached, List.all_eq_true] at this
    exact this p hpc
  · intro cs sm ih
    simp only [plotsDetached, detachPlotToolbars, select, selectL_eq, detachL_eq,
      List.all_eq_true]
    intro p hp
    rw [List.mem_flatMap] at hp
    obtain ⟨c, hc, hpc⟩ := hp
    rw [List.mem_map] at hc
    obtain ⟨a, ha, rfl⟩ := hc
    have := ih a ha
    simp only [plotsDetached, List.all_eq_true] at this
    exact this p hpc
  · intro cs sm ih
    simp only [plotsDetached, detachPlotToolbars, select, selectG_eq, detachG_eq,
      List.all_eq_true]
    intro p hp
    rw [List.mem_flatMap] at hp
    obtain ⟨c, hc, hpc⟩ := hp
    rw [List.mem_map] at hc
    obtain ⟨a, ha, rfl⟩ := hc
    have := ih a ha
    simp only [plotsDetached, List.all_eq_true] at this
    exact this p hpc
  · intro t l sm
    rfl

theorem select_applySize_all (pw ph : Option Nat) (t : LayoutDOM) :
    (select (applySize pw ph t)).all plotDetachedNode =
      (select t).all plotDetachedNode := by
  cases t <;> rfl

theorem ct_applySize (pw ph : Option Nat) (t : LayoutDOM) :
    collectToolbars (applySize pw ph t) = collectToolbars t := by
  cases t <;> rfl

theorem tfL_eq : ∀ cs : List LayoutDOM, tfL cs = cs.all toolbarFree := by
  intro cs
  induction cs with
  | nil => rfl
  | cons c rest ih => simp [tfL, ih]

theorem tfG_eq : ∀ cs : List (LayoutDOM × Nat × Nat),
    tfG cs = cs.all fun c => toolbarFree c.1 := by
  intro cs
  induction cs with
  | nil => rfl
  | cons c rest ih => simp [tfG, ih]

theorem tfree_detach : ∀ d, toolbarFree d = true →
    toolbarFree (detachPlotToolbars d) = true := by
  refine layoutdom_ind _ ?_ ?_ ?_ ?_ ?_ ?_
  · intro i t tl w h sm _
    rfl
  · intro i sm _
    rfl
  · intro cs sm ih h
    simp only [toolbarFree, detachPlotToolbars, tfL_eq, detachL_eq, List.all_map,
      List.all_eq_true] at *
    intro c hc
    exact ih c hc (h c hc)
  · intro cs sm ih h
    simp only [toolbarFree, detachPlotToolbars, tfL_eq, detachL_eq, List.all_map,
      List.all_eq_true] at *
    intro c hc
    exact ih c hc (h c hc)
  · intro cs sm ih h
    simp only [toolbarFree, detachPlotToolbars, tfG_eq, detachG_eq, List.all_map,
      List.all_eq_true] at *
    intro c hc
    exact ih c hc (h c hc)
  · intro t l sm h
    exact absurd h (by simp [toolbarFree])

theorem ct_nil_of_tfree : ∀ d, toolbarFree d = true → collectToolbars d = [] := by
  refine layoutdom_ind _ ?_ ?_ ?_ ?_ ?_ ?_
  · intro i t tl w h sm _
    rfl
  · intro i sm _
    rfl
  · intro cs sm ih h
    simp only [toolbarFree, tfL_eq, List.all_eq_true] at h
    simp only [collectToolbars, ctL_eq]
    exact List.flatMap_eq_nil_iff.mpr fun c hc => ih c hc (h c hc)
  · intro cs sm ih h
    simp only [toolbarFree, tfL_eq, List.all_eq_true] at h
    simp only [collectToolbars, ctL_eq]
    exact List.flatMap_eq_nil_iff.mpr fun c hc => ih c hc (h c hc)
  · intro cs sm ih h
    simp only [toolbarFree, tfG_eq, List.all_eq_true] at h
    simp only [collectToolbars, ctG_eq]
    exact List.flatMap_eq_nil_iff.mpr fun c hc => ih c hc (h c hc)
  · intro t l sm h
    exact absurd h (by simp [toolbarFree])

theorem gridplot_noncols (rl : List PyVal) (sm tl : Option String) (pw ph : Option Nat)
    (mt : Bool) (htl : pyTruthyStr tl = false ∨ hasattrLocation (tl.getD "") = true) :
    gridplot (.list rl) sm tl none pw ph mt =
      match gridRows mt pw ph rl 0 with
      | .error e => .error e
      | .ok (tools, items) => .ok (gridAssemble tools items sm tl mt) := by
  have hval : (pyTruthyStr tl && !hasattrLocation (tl.getD "")) = false := by
    rcases htl with h | h <;> simp [h]
  cases rl with
  | nil => simp [gridplot, hval, pyTruthyInt, pyFalsy, _handle_children, gridRows]
  | cons x xs =>
    have hhc : _handle_children [] (.list (x :: xs)) = .ok (.list (x :: xs)) := rfl
    simp [gridplot, hval, pyTruthyInt, pyFalsy, hhc, pyIter]

theorem gridRowStep_char (pw ph : Option Nat) (y : Nat) :
    ∀ r : List PyVal, r.all gridItemOk = true → ∀ x,
      ∃ its, gridRowStep true pw ph y r x =
          .ok ((rowPlots r).flatMap LayoutDOM.toolbarTools, its) ∧
        ∀ c ∈ its, ∃ d, PyVal.dom d ∈ r ∧
          c.1 = applySize pw ph (detachPlotToolbars d) := by
  intro r
  induction r with
  | nil =>
    intro _ x
    exact ⟨[], rfl, by simp⟩
  | cons a rest ih =>
    intro hall x
    have hsplit : gridItemOk a = true ∧ rest.all gridItemOk = true := by simpa using hall
    obtain ⟨its, hits, hprop⟩ := ih hsplit.2 (x + 1)
    cases a with
    | pynone =>
      refine ⟨its, ?_, ?_⟩
      · simpa [gridRowStep, rowPlots] using hits
      · intro c hc
        obtain ⟨d, hd, hcd⟩ := hprop c hc
        exact ⟨d, List.mem_cons_of_mem _ hd, hcd⟩
    | dom item =>
      refine ⟨(applySize pw ph (detachPlotToolbars item), y, x) :: its, ?_, ?_⟩
      · simp [gridRowStep, hits, rowPlots]
      · intro c hc
        rcases List.mem_cons.mp hc with rfl | hc
        · exact ⟨item, List.mem_cons_self _ _, rfl⟩
        · obtain ⟨d, hd, hcd⟩ := hprop c hc
          exact ⟨d, List.mem_cons_of_mem _ hd, hcd⟩
    | list l => simp [gridItemOk] at hsplit
    | gspec => simp [gridItemOk] at hsplit
    | other n => simp [gridItemOk] at hsplit

theorem gridRows_char (pw ph : Option Nat) :
    ∀ rows : List (List PyVal), (rows.all fun r => r.all gridItemOk) = true → ∀ y,
      ∃ its, gridRows true pw ph (rows.map PyVal.list) y =
          .ok ((gridPlots rows).flatMap LayoutDOM.toolbarTools, its) ∧
        ∀ c ∈ its, ∃ d, (∃ r ∈ rows, PyVal.dom d ∈ r) ∧
          c.1 = applySize pw ph (detachPlotToolbars d) := by
  intro rows
  induction rows with
  | nil =>
    intro _ y
    exact ⟨[], rfl, by simp⟩
  | cons r rest ih =>
    intro hall y
    have hsplit : r.all gridItemOk = true ∧ (rest.all fun r => r.all gridItemOk) = true := by
      simpa using hall
    obtain ⟨its1, hits1, hprop1⟩ := gridRowStep_char pw ph y r hsplit.1 0
    obtain ⟨its2, hits2, hprop2⟩ := ih hsplit.2 (y + 1)
    refine ⟨its1 ++ its2, ?_, ?_⟩
    · simp [gridRows, pyIter, hits1, hits2, gridPlots]
    · intro c hc
      rcases List.mem_append.mp hc with hc | hc
      · obtain ⟨d, hd, hcd⟩ := hprop1 c hc
        exact ⟨d, ⟨r, List.mem_cons_self _ _, hd⟩, hcd⟩
      · obtain ⟨d, ⟨r2, hr2, hd⟩, hcd⟩ := hprop2 c hc
        exact ⟨d, ⟨r2, List.mem_cons_of_mem _ hr2, hd⟩, hcd⟩

theorem gridRowStep_ok (mt : Bool) (pw ph : Option Nat) (y : Nat) :
    ∀ r : List PyVal, r.all gridItemOk = true → ∀ x,
      ∃ ts its, gridRowStep mt pw ph y r x = .ok (ts, its) := by
  intro r
  induction r with
  | nil =>
    intro _ x
    exact ⟨[], [], rfl⟩
  | cons a rest ih =>
    intro hall x
    have hsplit : gridItemOk a = true ∧ rest.all gridItemOk = true := by simpa using hall
    obtain ⟨ts, its, hits⟩ := ih hsplit.2 (x + 1)
    cases a with
    | pynone => exact ⟨ts, its, by simpa [gridRowStep] using hits⟩
    | dom item =>
      exact ⟨(if mt then (select item).flatMap LayoutDOM.toolbarTools else []) ++ ts,
        (applySize pw ph (if mt then detachPlotToolbars item else item), y, x) :: its,
        by simp [gridRowStep, hits]⟩
    | list l => simp [gridItemOk] at hsplit
    | gspec => simp [gridItemOk] at hsplit
    | other n => simp [gridItemOk] at hsplit

theorem gridRows_ok (mt : Bool) (pw ph : Option Nat) :
    ∀ rows : List (List PyVal), (rows.all fun r => r.all gridItemOk) = true → ∀ y,
      ∃ ts its, gridRows mt pw ph (rows.map PyVal.list) y = .ok (ts, its) := by
  intro rows
  induction rows with
  | nil =>
    intro _ y
    exact ⟨[], [], rfl⟩
  | cons r rest ih =>
    intro hall y
    have hsplit : r.all gridItemOk = true ∧ (rest.all fun r => r.all gridItemOk) = true := by
      simpa using hall
    obtain ⟨ts1, its1, h1⟩ := gridRowStep_ok mt pw ph y r hsplit.1 0
    obtain ⟨ts2, its2, h2⟩ := ih hsplit.2 (y + 1)
    exact ⟨ts1 ++ ts2, its1 ++ its2, by simp [gridRows, pyIter, h1, h2]⟩

/-- A grid entry that carries no `ToolbarBox` (a "grid of plots"). -/
def itemToolbarFree : PyVal → Bool
  | .dom d => toolbarFree d
  | _ => true

/-- Claim C8: `gridplot` with a truthy (non-zero) `ncols` and a children list
containing a nested list raises `ValueError` before any grid is constructed. -/
theorem claim8_ncols_nested (l : List PyVal) (sm tl : Option String) (n : Int)
    (pw ph : Option Nat) (mt : Bool)
    (htl : pyTruthyStr tl = false ∨ hasattrLocation (tl.getD "") = true)
    (hn : n ≠ 0) (hnested : l.any isPyList = true) :
    gridplot (.list l) sm tl (some n) pw ph mt =
      .error (.valueError "Cannot provide a nested list when using ncols") := by
  have hval : (pyTruthyStr tl && !hasattrLocation (tl.getD "")) = false := by
    rcases htl with h | h <;> simp [h]
  have hn' : pyTruthyInt (some n) = true := by simp [pyTruthyInt, hn]
  have hhc : _handle_children [] (.list l) = .ok (.list l) := by cases l <;> rfl
  simp [gridplot, hval, hhc, hn', pyIter, hnested]

/-- Witness for C8: two plots and a nested list with `ncols = 2`. -/
theorem claim8_witness :
    ((pyTruthyStr (some "above") = false ∨
        hasattrLocation ((some "above").getD "") = true) ∧
      (2 : Int) ≠ 0 ∧
      ([.dom (.Widget 1 none), .list [.dom (.Widget 2 none)]] : List PyVal).any isPyList = true) ∧
    gridplot (.list [.dom (.Widget 1 none), .list [.dom (.Widget 2 none)]])
        none (some "above") (some 2) none none true =
      .error (.valueError "Cannot provide a nested list when using ncols") :=
  ⟨⟨Or.inr (by decide), by decide, by decide⟩,
    claim8_ncols_nested _ none (some "above") 2 none none true (Or.inr (by decide))
      (by decide) (by decide)⟩

/-- Claim C7: with valid children and `merge_tools = True`, `gridplot` wraps
the grid and merged toolbar in a `Column` for `above` (toolbar first) and
`below` (grid first), in a `Row` for `left` (toolbar first) and `right`
(grid first); with `toolbar_location = None` or `merge_tools = False` the
bare `GridBox` (carrying the sizing mode) is returned with no toolbar. -/
theorem claim7_toolbar_wrapping (rows : List (List PyVal)) (sm : Option String)
    (pw ph : Option Nat) (hok : (rows.all fun r => r.all gridItemOk) = true) :
    ∃ ts its ts2 its2,
      gridRows true pw ph (rows.map PyVal.list) 0 = .ok (ts, its) ∧
      gridRows false pw ph (rows.map PyVal.list) 0 = .ok (ts2, its2) ∧
      gridplot (.list (rows.map PyVal.list)) sm (some "above") none pw ph true =
        .ok (.dom (.Column [.ToolbarBox ts "above" none, .GridBox its none] sm)) ∧
      gridplot (.list (rows.map PyVal.list)) sm (some "below") none pw ph true =
        .ok (.dom (.Column [.GridBox its none, .ToolbarBox ts "below" none] sm)) ∧
      gridplot (.list (rows.map PyVal.list)) sm (some "left") none pw ph true =
        .ok (.dom (.Row [.ToolbarBox ts "left" none, .GridBox its none] sm)) ∧
      gridplot (.list (rows.map PyVal.list)) sm (some "right") none pw ph true =
        .ok (.dom (.Row [.GridBox its none, .ToolbarBox ts "right" none] sm)) ∧
      gridplot (.list (rows.map PyVal.list)) sm none none pw ph true =
        .ok (.dom (.GridBox its sm)) ∧
      (∀ loc, hasattrLocation loc = true →
        gridplot (.list (rows.map PyVal.list)) sm (some loc) none pw ph false =
          .ok (.dom (.GridBox its2 sm))) := by
  obtain ⟨ts, its, h1⟩ := gridRows_ok true pw ph rows hok 0
  obtain ⟨ts2, its2, h2⟩ := gridRows_ok false pw ph rows hok 0
  refine ⟨ts, its, ts2, its2, h1, h2, ?_, ?_, ?_, ?_, ?_, ?_⟩
  · have h := gridplot_noncols (rows.map PyVal.list) sm (some "above") pw ph true
      (Or.inr (by decide))
    simp only [h1] at h
    simpa [gridAssemble, pyTruthyStr] using h
  · have h := gridplot_noncols (rows.map PyVal.list) sm (some "below") pw ph true
      (Or.inr (by decide))
    simp only [h1] at h
    simpa [gridAssemble, pyTruthyStr] using h
  · have h := gridplot_noncols (rows.map PyVal.list) sm (some "left") pw ph true
      (Or.inr (by decide))
    simp only [h1] at h
    simpa [gridAssemble, pyTruthyStr] using h
  · have h := gridplot_noncols (rows.map PyVal.list) sm (some "right") pw ph true
      (Or.inr (by decide))
    simp only [h1] at h
    simpa [gridAssemble, pyTruthyStr] using h
  · have h := gridplot_noncols (rows.map PyVal.list) sm none pw ph true (Or.inl rfl)
    simp only [h1] at h
    simpa [gridAssemble, pyTruthyStr] using h
  · intro loc hloc
    have h := gridplot_noncols (rows.map PyVal.list) sm (some loc) pw ph false
      (Or.inr hloc)
    simp only [h2] at h
    simpa [gridAssemble] using h

/-- Witness for C7 at a concrete 2-row grid of plots. -/
theorem claim7_witness :
    (([[.dom (.Plot 1 [10] (some "right") 5 5 none)],
        [.pynone, .dom (.Plot 2 [11] (some "left") 5 5 none)]] :
          List (List PyVal)).all fun r => r.all gridItemOk) = true ∧
    ∃ ts its ts2 its2,
      gridRows true none none
          ([[.dom (.Plot 1 [10] (some "right") 5 5 none)],
            [.pynone, .dom (.Plot 2 [11] (some "left") 5 5 none)]].map PyVal.list) 0 =
        .ok (ts, its) ∧
      gridRows false none none
          ([[.dom (.Plot 1 [10] (some "right") 5 5 none)],
            [.pynone, .dom (.Plot 2 [11] (some "left") 5 5 none)]].map PyVal.list) 0 =
        .ok (ts2, its2) ∧
      gridplot (.list ([[.dom (.Plot 1 [10] (some "right") 5 5 none)],
            [.pynone, .dom (.Plot 2 [11] (some "left") 5 5 none)]].map PyVal.list))
          none (some "above") none none none true =
        .ok (.dom (.Column [.ToolbarBox ts "above" none, .GridBox its none] none)) ∧
      gridplot (.list ([[.dom (.Plot 1 [10] (some "right") 5 5 none)],
            [.pynone, .dom (.Plot 2 [11] (some "left") 5 5 none)]].map PyVal.list))
          none (some "below") none none none true =
        .ok (.dom (.Column [.GridBox its none, .ToolbarBox ts "below" none] none)) ∧
      gridplot (.list ([[.dom (.Plot 1 [10] (some "right") 5 5 none)],
            [.pynone, .dom (.Plot 2 [11] (some "left") 5 5 none)]].map PyVal.list))
          none (some "left") none none none true =
        .ok (.dom (.Row [.ToolbarBox ts "left" none, .GridBox its none] none)) ∧
      gridplot (.list ([[.dom (.Plot 1 [10] (some "right") 5 5 none)],
            [.pynone, .dom (.Plot 2 [11] (some "left") 5 5 none)]].map PyVal.list))
          none (some "right") none none none true =
        .ok (.dom (.Row [.GridBox its none, .ToolbarBox ts "right" none] none)) ∧
      gridplot (.list ([[.dom (.Plot 1 [10] (some "right") 5 5 none)],
            [.pynone, .dom (.Plot 2 [11] (some "left") 5 5 none)]].map PyVal.list))
          none none none none none true =
        .ok (.dom (.GridBox its none)) ∧
      (∀ loc, hasattrLocation loc = true →
        gridplot (.list ([[.dom (.Plot 1 [10] (some "right") 5 5 none)],
              [.pynone, .dom (.Plot 2 [11] (some "left") 5 5 none)]].map PyVal.list))
            none (some loc) none none none false =
          .ok (.dom (.GridBox its2 none))) :=
  ⟨by decide, claim7_toolbar_wrapping _ none none none (by decide)⟩

/-- Claim C2: `gridplot` over a toolbar-free grid with `merge_tools = True`
and a valid location returns a layout containing exactly one toolbar, whose
proxy tool list is the concatenation of the tools of all descendant plots of
the grid items in order (its length is the sum of the per-plot tool counts),
and every descendant plot in the returned layout has its own toolbar
detached (`toolbar_location is None`). -/
theorem claim2_merged_toolbar (rows : List (List PyVal)) (sm : Option String)
    (loc : String) (pw ph : Option Nat)
    (hloc : hasattrLocation loc = true)
    (hok : (rows.all fun r => r.all gridItemOk) = true)
    (htf : (rows.all fun r => r.all itemToolbarFree) = true) :
    ∃ res, gridplot (.list (rows.map PyVal.list)) sm (some loc) none pw ph true =
        .ok (.dom res) ∧
      collectToolbars res = [(gridPlots rows).flatMap LayoutDOM.toolbarTools] ∧
      ((gridPlots rows).flatMap LayoutDOM.toolbarTools).length =
        ((gridPlots rows).map fun p => (LayoutDOM.toolbarTools p).length).sum ∧
      plotsDetached res = true := by
  obtain ⟨its, hits, hprop⟩ := gridRows_char pw ph rows hok 0
  have hct : ctG its = [] := by
    rw [ctG_eq]
    refine List.flatMap_eq_nil_iff.mpr fun c hc => ?_
    obtain ⟨d, ⟨r, hr, hd⟩, hcd⟩ := hprop c hc
    have htfd : toolbarFree d = true := by
      have hx := List.all_eq_true.mp (List.all_eq_true.mp htf r hr) (PyVal.dom d) hd
      simpa [itemToolbarFree] using hx
    rw [hcd, ct_applySize]
    exact ct_nil_of_tfree _ (tfree_detach _ htfd)
  have hdet : (selectG its).all plotDetachedNode = true := by
    rw [selectG_eq, List.all_eq_true]
    intro p hp
    rw [List.mem_flatMap] at hp
    obtain ⟨c, hc, hpc⟩ := hp
    obtain ⟨d, -, hcd⟩ := hprop c hc
    have hall : (select c.1).all plotDetachedNode = true := by
      rw [hcd, select_applySize_all]
      exact detach_detached d
    exact List.all_eq_true.mp hall p hpc
  have hlen : ((gridPlots rows).flatMap LayoutDOM.toolbarTools).length =
      ((gridPlots rows).map fun p => (LayoutDOM.toolbarTools p).length).sum := by
    simp only [List.length_flatMap]
    rfl
  have hfour : loc = "above" ∨ loc = "below" ∨ loc = "left" ∨ loc = "right" := by
    have h := hloc
    simp only [hasattrLocation, Bool.or_eq_true, beq_iff_eq] at h
    tauto
  have hgp := gridplot_noncols (rows.map PyVal.list) sm (some loc) pw ph true (Or.inr hloc)
  simp only [hits] at hgp
  rcases hfour with rfl | rfl | rfl | rfl
  · refine ⟨.Column [.ToolbarBox ((gridPlots rows).flatMap LayoutDOM.toolbarTools)
      "above" none, .GridBox its none] sm, ?_, ?_, hlen, ?_⟩
    · simpa [gridAssemble, pyTruthyStr] using hgp
    · simp [collectToolbars, ctL, hct]
    · simp [plotsDetached, select, selectL, List.all_append, hdet, plotDetachedNode]
  · refine ⟨.Column [.GridBox its none, .ToolbarBox ((gridPlots rows).flatMap
      LayoutDOM.toolbarTools) "below" none] sm, ?_, ?_, hlen, ?_⟩
    · simpa [gridAssemble, pyTruthyStr] using hgp
    · simp [collectToolbars, ctL, hct]
    · simp [plotsDetached, select, selectL, List.all_append, hdet, plotDetachedNode]
  · refine ⟨.Row [.ToolbarBox ((gridPlots rows).flatMap LayoutDOM.toolbarTools)
      "left" none, .GridBox its none] sm, ?_, ?_, hlen, ?_⟩
    · simpa [gridAssemble, pyTruthyStr] using hgp
    · simp [collectToolbars, ctL, hct]
    · simp [plotsDetached, select, selectL, List.all_append, hdet, plotDetachedNode]
  · refine ⟨.Row [.GridBox its none, .ToolbarBox ((gridPlots rows).flatMap
      LayoutDOM.toolbarTools) "right" none] sm, ?_, ?_, hlen, ?_⟩
    · simpa [gridAssemble, pyTruthyStr] using hgp
    · simp [collectToolbars, ctL, hct]
    · simp [plotsDetached, select, selectL, List.all_append, hdet, plotDetachedNode]

/-- Witness for C2 at a concrete 2-row grid of two plots with 2 + 1 tools. -/
theorem claim2_witness :
    (hasattrLocation "above" = true ∧
      (([[.dom (.Plot 1 [10, 11] (some "right") 5 5 none)],
          [.dom (.Plot 2 [12] (some "left") 5 5 none)]] :
            List (List PyVal)).all fun r => r.all gridItemOk) = true ∧
      (([[.dom (.Plot 1 [10, 11] (some "right") 5 5 none)],
          [.dom (.Plot 2 [12] (some "left") 5 5 none)]] :
            List (List PyVal)).all fun r => r.all itemToolbarFree) = true) ∧
    ∃ res, gridplot (.list ([[.dom (.Plot 1 [10, 11] (some "right") 5 5 none)],
          [.dom (.Plot 2 [12] (some "left") 5 5 none)]].map PyVal.list))
        none (some "above") none none none true = .ok (.dom res) ∧
      collectToolbars res =
        [(gridPlots [[.dom (.Plot 1 [10, 11] (some "right") 5 5 none)],
          [.dom (.Plot 2 [12] (some "left") 5 5 none)]]).flatMap LayoutDOM.toolbarTools] ∧
      ((gridPlots [[.dom (.Plot 1 [10, 11] (some "right") 5 5 none)],
          [.dom (.Plot 2 [12] (some "left") 5 5 none)]]).flatMap LayoutDOM.toolbarTools).length =
        ((gridPlots [[.dom (.Plot 1 [10, 11] (some "right") 5 5 none)],
          [.dom (.Plot 2 [12] (some "left") 5 5 none)]]).map
            fun p => (LayoutDOM.toolbarTools p).length).sum ∧
      plotsDetached res = true :=
  ⟨⟨by decide, by decide, by decide⟩,
    claim2_merged_toolbar _ none "above" none none (by decide) (by decide) (by decide)⟩
